import Mathlib

/-!
Verification of the go-geodesy densification engine and its geodesic
primitives, as a shallow embedding in Lean 4.

Conventions of the embedding:

* `float64` values are modelled as exact rationals (`ℚ`).  All quantities the
  densification engine branches on (subdivision fractions, tolerances,
  comparisons) are dyadic rationals that `float64` represents exactly, so the
  control flow of the embedding matches the control flow of the Go code.
* Earth models (`geod.EarthModel`, a function producing a value of the `Model`
  interface) are abstracted by the two capabilities the densification engine
  actually consumes through `geod.IntermediatePoint` and `geod.Distance`:
  an intermediate-point function and a distance function.  Theorems quantify
  over all models, mirroring the Go code's model parameters.
* Go's multiple return `(value, error)` becomes a pair whose second component
  is `Option DensifyErr`; a `nil` slice together with a hard error becomes
  `([], some e)`.
* The transcendental `math` functions used by the Vincenty solver and the
  Mercator projection are abstracted as function parameters, so the
  branch structure (which is what the claims are about) is exact.
-/

namespace Geod

/-- `geod.Degrees` is `float64`; modelled as `ℚ`. -/
abbrev Degrees := ℚ

/-- `geod.LatLon`: a latitude/longitude pair in degrees. -/
structure LatLon where
  Latitude : Degrees
  Longitude : Degrees
  deriving DecidableEq, Repr

/-- `orb.Point`: a `[2]float64`, index 0 the longitude, index 1 the latitude. -/
structure Point where
  lon : ℚ
  lat : ℚ
  deriving DecidableEq, Repr

/-- The conversion `geod.LatLon{Longitude: Degrees(p[0]), Latitude: Degrees(p[1])}`
used throughout `utils/densify.go`. -/
def pointToLatLon (p : Point) : LatLon := ⟨p.lat, p.lon⟩

/-- The conversion `orb.Point{float64(ll.Longitude), float64(ll.Latitude)}`
(densify.go line 163). -/
def latLonToPoint (l : LatLon) : Point := ⟨l.Longitude, l.Latitude⟩

/-- The capabilities of a `geod.EarthModel` that the densification engine uses:
`geod.IntermediatePoint(start, end, fraction, model)` resolves to
`model(start).IntermediatePointTo(end, fraction)` and
`geod.Distance(start, end, model)` to `model(start).DistanceTo(end)`
(see `geod.go`).  Distances are in metres (`units.Distance.Metre()` is the
identity in this embedding). -/
structure EarthModel where
  intermediatePointTo : LatLon → LatLon → ℚ → LatLon
  distanceTo : LatLon → LatLon → ℚ

/-- `geod.IntermediatePoint` (geod.go): `model(start).IntermediatePointTo(end, fraction)`. -/
def IntermediatePoint (start dest : LatLon) (fraction : ℚ) (model : EarthModel) : LatLon :=
  model.intermediatePointTo start dest fraction

/-- `geod.Distance` (geod.go): `model(start).DistanceTo(end)`, in metres. -/
def Distance (start dest : LatLon) (model : EarthModel) : ℚ :=
  model.distanceTo start dest

/-- The sentinel errors of `utils/densify.go`.  `invalidGeometry` stands for the
wrapped `fmt.Errorf("%w: ...", ErrInvalidGeometry)` value, which `errors.Is`
identifies with `ErrInvalidGeometry`. -/
inductive DensifyErr where
  | invalidTolerance
  | toleranceTooLow
  | internalError
  | invalidGeometry
  deriving DecidableEq, Repr

/-- Go's `err2 != nil && !errors.Is(err2, ErrToleranceTooLow)`: the condition
under which every densify function aborts with a `nil` result. -/
def isHardErr : Option DensifyErr → Bool
  | none => false
  | some .toleranceTooLow => false
  | some _ => true

/-- The error accumulation of the densify loops: a local `err` variable is set
to `err2` whenever `err2` is `ErrToleranceTooLow`, so the final error is
`ErrToleranceTooLow` exactly when some sub-call reported it. -/
def accumErr (a b : Option DensifyErr) : Option DensifyErr :=
  if a = some .toleranceTooLow ∨ b = some .toleranceTooLow then some .toleranceTooLow else none

/-- The tail of `utils.densifySegment` (densify.go lines 157–187): propagate a
hard error from either recursive call with a `nil` result, otherwise append
`right[1:]` to `left` and accumulate soft errors.  (The Go code computes
`right` only after checking `left` for a hard error; both calls are pure, so
evaluating both first is the same function.) -/
def densifyMerge (left right : List Point × Option DensifyErr) :
    List Point × Option DensifyErr :=
  if isHardErr left.2 then ([], left.2)
  else if isHardErr right.2 then ([], right.2)
  else (left.1 ++ right.1.drop 1, accumErr left.2 right.2)

/-- `utils.densifySegment` (densify.go lines 138–188).  Arguments follow the Go
signature: `ll0, ll1` are the original segment endpoints, `pf, pt` the current
sub-segment endpoints, `f, t` (`from`, `to` in Go) the fractions of the
original segment they sit at, and `recDepth` the remaining recursion budget.
Go first decrements `recDepth`; here a call at fuel `d+1` performs the body
with decremented value `d`.  (The Go function is never called with
`recDepth = 0`; the fuel-0 case carries the depth-limited behaviour.) -/
def densifySegment (ll0 ll1 : LatLon) (pf pt : Point) (f t : ℚ)
    (M R : EarthModel) (tolerance : ℚ) (recDepth : Nat) : List Point × Option DensifyErr :=
  match recDepth with
  | 0 =>
    let mid := (f + t) / 2
    let mp := IntermediatePoint ll0 ll1 mid M
    let refMp := IntermediatePoint (pointToLatLon pf) (pointToLatLon pt) (1/2) R
    let e := Distance mp refMp M
    if e ≤ tolerance then ([pf, pt], none) else ([pf, pt], some .toleranceTooLow)
  | d + 1 =>
    let mid := (f + t) / 2
    let mp := IntermediatePoint ll0 ll1 mid M
    let refMp := IntermediatePoint (pointToLatLon pf) (pointToLatLon pt) (1/2) R
    let e := Distance mp refMp M
    if e ≤ tolerance then ([pf, pt], none)
    else if d = 0 then ([pf, pt], some .toleranceTooLow)
    else
      let omp := latLonToPoint mp
      densifyMerge (densifySegment ll0 ll1 pf omp f mid M R tolerance d)
        (densifySegment ll0 ll1 omp pt mid t M R tolerance d)

/-- Modelled from the spec: the behaviour claim C6 ascribes to the
error-measurement step of `densifySegment` — "a computed midpoint longitude of
−180 should be normalized to +180 ... before distance measurement".  Identical
to `densifySegment` except that the measured midpoint has a longitude of −180
replaced by +180, exactly as `SegmentError` does. -/
def densifySegmentNorm (ll0 ll1 : LatLon) (pf pt : Point) (f t : ℚ)
    (M R : EarthModel) (tolerance : ℚ) (recDepth : Nat) : List Point × Option DensifyErr :=
  match recDepth with
  | 0 =>
    let mid := (f + t) / 2
    let mp := IntermediatePoint ll0 ll1 mid M
    let mpN := if mp.Longitude = -180 then { mp with Longitude := 180 } else mp
    let refMp := IntermediatePoint (pointToLatLon pf) (pointToLatLon pt) (1/2) R
    let e := Distance mpN refMp M
    if e ≤ tolerance then ([pf, pt], none) else ([pf, pt], some .toleranceTooLow)
  | d + 1 =>
    let mid := (f + t) / 2
    let mp := IntermediatePoint ll0 ll1 mid M
    let mpN := if mp.Longitude = -180 then { mp with Longitude := 180 } else mp
    let refMp := IntermediatePoint (pointToLatLon pf) (pointToLatLon pt) (1/2) R
    let e := Distance mpN refMp M
    if e ≤ tolerance then ([pf, pt], none)
    else if d = 0 then ([pf, pt], some .toleranceTooLow)
    else
      let omp := latLonToPoint mp
      densifyMerge (densifySegmentNorm ll0 ll1 pf omp f mid M R tolerance d)
        (densifySegmentNorm ll0 ll1 omp pt mid t M R tolerance d)

/-- Modelled from the spec: `DensifySegment` as claim C6 describes it, with the
−180-normalizing error measurement of `densifySegmentNorm`. -/
def DensifySegmentNorm (p0 p1 : Point) (M R : EarthModel) (tolerance : ℚ) :
    List Point × Option DensifyErr :=
  if tolerance ≤ 0 then ([], some .invalidTolerance)
  else densifySegmentNorm (pointToLatLon p0) (pointToLatLon p1) p0 p1 0 1 M R tolerance 15

/-- `utils.DensifySegment` (densify.go lines 126–136): validates the tolerance
and starts the recursion with the fixed ceiling of 15. -/
def DensifySegment (p0 p1 : Point) (M R : EarthModel) (tolerance : ℚ) :
    List Point × Option DensifyErr :=
  if tolerance ≤ 0 then ([], some .invalidTolerance)
  else densifySegment (pointToLatLon p0) (pointToLatLon p1) p0 p1 0 1 M R tolerance 15

/-- The loop body of `utils.DensifyRing` (densify.go lines 85–100): densify the
segment from `prev` to each successive target point, append `ps[1:]`, abort on
a hard error with a `nil` result, return `ErrInternalError` when a sub-call
yields fewer than 2 points, and accumulate `ErrToleranceTooLow`. -/
def densifyRingLoop (M R : EarthModel) (tolerance : ℚ) :
    Point → List Point → List Point × Option DensifyErr
  | _, [] => ([], none)
  | prev, x :: rest =>
    let s := DensifySegment prev x M R tolerance
    if isHardErr s.2 then ([], s.2)
    else if 1 < s.1.length then
      let r := densifyRingLoop M R tolerance x rest
      if isHardErr r.2 then ([], r.2)
      else (s.1.drop 1 ++ r.1, accumErr s.2 r.2)
    else ([], some .internalError)

/-- The return of `utils.DensifyRing`: a hard error from the loop yields a
`nil` ring (Go returns `nil, err2` from inside the loop); otherwise `dr` is
`ring[0]` followed by the collected segment tails, with the accumulated error. -/
def ringFinish (p0 : Point) (r : List Point × Option DensifyErr) :
    List Point × Option DensifyErr :=
  if isHardErr r.2 then ([], r.2) else (p0 :: r.1, r.2)

/-- `utils.DensifyRing` (densify.go lines 72–120).  A ring with fewer than 2
points is invalid geometry.  The Go loop walks segments `ring[i-1] → ring[i]`
and, when first and last point do not coincide, additionally the closing
segment `last → ring[0]`; both are the single pass of `densifyRingLoop` over
the tail of the ring, extended by `ring[0]` when the ring is not closed. -/
def DensifyRing (ring : List Point) (M R : EarthModel) (tolerance : ℚ) :
    List Point × Option DensifyErr :=
  match ring with
  | [] => ([], some .invalidGeometry)
  | [_] => ([], some .invalidGeometry)
  | p0 :: p1 :: rest =>
    let lastPoint := (p0 :: p1 :: rest).getLast (List.cons_ne_nil _ _)
    let closed := p0 = lastPoint
    let targets := if closed then p1 :: rest else (p1 :: rest) ++ [p0]
    ringFinish p0 (densifyRingLoop M R tolerance p0 targets)

/-- The common loop shape of `utils.DensifyPolygon` (densify.go lines 48–68)
and `utils.DensifyMultiPolygon` (lines 24–44): densify every element, abort on
a hard error with a `nil` result, accumulate `ErrToleranceTooLow`, and append
each element's best-effort result. -/
def densifyListLoop {α β : Type} (step : α → β × Option DensifyErr) :
    List α → List β × Option DensifyErr
  | [] => ([], none)
  | x :: rest =>
    let dx := step x
    if isHardErr dx.2 then ([], dx.2)
    else
      let r := densifyListLoop step rest
      if isHardErr r.2 then ([], r.2)
      else (dx.1 :: r.1, accumErr dx.2 r.2)

/-- `utils.DensifyPolygon` (densify.go lines 48–68). -/
def DensifyPolygon (poly : List (List Point)) (M R : EarthModel) (tolerance : ℚ) :
    List (List Point) × Option DensifyErr :=
  densifyListLoop (fun ring => DensifyRing ring M R tolerance) poly

/-- `utils.DensifyMultiPolygon` (densify.go lines 24–44). -/
def DensifyMultiPolygon (mp : List (List (List Point))) (M R : EarthModel) (tolerance : ℚ) :
    List (List (List Point)) × Option DensifyErr :=
  densifyListLoop (fun poly => DensifyPolygon poly M R tolerance) mp

/-- Go's `math.Trunc` as used by `math.Mod`: round toward zero. -/
def goTrunc (q : ℚ) : ℤ := if 0 ≤ q then ⌊q⌋ else ⌈q⌉

/-- Go's `math.Mod(x, y)`: the remainder `x - y*Trunc(x/y)`, whose sign follows `x`. -/
def goMod (x y : ℚ) : ℚ := x - y * (goTrunc (x / y) : ℚ)

/-- `geod.Wrap360` (degree wrapping source, lines 432–438): constrain to 0..360. -/
def Wrap360 (degrees : Degrees) : Degrees :=
  if 0 ≤ degrees ∧ degrees < 360 then degrees
  else goMod (goMod degrees 360 + 360) 360

/-- `geod.Wrap180` (degree wrapping source, lines 441–450): constrain to -180..+180. -/
def Wrap180 (degrees : Degrees) : Degrees :=
  if -180 < degrees ∧ degrees ≤ 180 then degrees
  else goMod (degrees + 180 + 360 * ((⌊|degrees| / 360⌋ : ℤ) + 1 : ℤ)) 360 - 180

/-- `geod.Wrap90` (degree wrapping source, lines 453–460): constrain to -90..+90
by a triangle wave.  The source carries the comment `TODO: fix e.g. -315°`. -/
def Wrap90 (degrees : Degrees) : Degrees :=
  if -90 ≤ degrees ∧ degrees ≤ 90 then degrees
  else |goMod (goMod degrees 360 + 270) 360 - 180| - 90

/-- The exact rational value of the float64 constant `math.Pi`. -/
def piF : ℚ := 884279719003555 / 281474976710656

/-- `Degrees.Radians()` (src/vector3d_test.go, appended latlon chunk, lines
193–196): `float64(d) * math.Pi / 180.0`, with `π` the float64 `math.Pi`. -/
def Radians (d : Degrees) : ℚ := d * piF / 180

/-- Machine epsilon of float64, `math.Nextafter(1, 2) - 1`. -/
def machineEps : ℚ := 1 / 2 ^ 52

/-- `LatLon.Equals` (src/vector3d_test.go, appended latlon chunk, lines
226–239): machine-epsilon comparison of the latitudes, then of the
longitudes, returning false as soon as one differs by more than
`math.Nextafter(1, 2) - 1`. -/
def LatLon.Equals (l other : LatLon) : Bool :=
  if |l.Latitude - other.Latitude| > machineEps then false
  else if |l.Longitude - other.Longitude| > machineEps then false
  else true

/-- `geod.MercatorMaxLat` (mercator.go line 15). -/
def MercatorMaxLat : Degrees := 8505112877980644 / 100000000000000

/-- `LatLon.MercatorPoint` (mercator.go lines 21–34).  The explicit
`MercatorPoint{math.NaN(), math.NaN()}` rejection is `none`; the `math.Tan`
and `math.Log` calls of the Y formula are abstracted as the function
parameters `tanF` and `logF`. -/
def MercatorPoint (tanF logF : ℚ → ℚ) (ll : LatLon) : Option (ℚ × ℚ) :=
  if ll.Latitude > MercatorMaxLat then none
  else
    let x := (ll.Longitude + 180) / 360
    let latRad := Radians ll.Latitude
    let y := 1 / 2 + logF (tanF (piF / 4 + latRad / 2)) / (2 * piF)
    some (x, y)

/-- The transcendental float64 operations the Vincenty inverse solver calls;
abstracted so the solver's branch structure is exact while the numerics stay
parametric. -/
structure RealOps where
  sin : ℚ → ℚ
  cos : ℚ → ℚ
  tan : ℚ → ℚ
  atan2 : ℚ → ℚ → ℚ
  sqrt : ℚ → ℚ

/-- `Ellipsoid` (src/mercator_test.go, appended ellipsoid chunk, lines 95–97):
the parameter set `{a, b, f float64}` — semi-major axis, semi-minor axis,
flattening. -/
structure Ellipsoid where
  a : ℚ
  b : ℚ
  f : ℚ
  deriving DecidableEq, Repr

/-- `wgs84` / `WGS84()` (src/mercator_test.go, appended ellipsoid chunk,
lines 99–104): `Ellipsoid{a: 6378137, b: 6356752.314245, f: 1/298.257223563}`,
the decimal literals as exact rationals. -/
def WGS84 : Ellipsoid :=
  { a := 6378137, b := 6356752314245 / 1000000, f := 1000000000 / 298257223563 }

/-- The loop state of `VincentyInverse` (latlon_ellipsodial_vincenty.go lines
181–230): the variables that survive iterations and feed the distance formula. -/
structure VState where
  lam : ℚ
  sinSigma : ℚ
  cosSigma : ℚ
  sigma : ℚ
  cos2SigmaM : ℚ
  cosSqAlpha : ℚ
  deriving DecidableEq, Repr

/-- The iteration loop of `VincentyInverse` (lines 197–230).  The fuel is the
number of remaining iterations (1000 at the start).  `none` models the
mid-loop `return NaN` when `iterationCheck > π`; `some (st, true)` models
leaving the loop with `iterations >= 1000` (which the code then turns into
NaN); `some (st, false)` is normal convergence or the small-`sin²σ` break. -/
def vincentyIter (ops : RealOps) (L f : ℚ) (cosU1 sinU1 cosU2 sinU2 : ℚ)
    (isAntipodal : Bool) : Nat → VState → Option (VState × Bool)
  | 0, st => some (st, true)
  | fuel + 1, st =>
    let sinLam := ops.sin st.lam
    let cosLam := ops.cos st.lam
    let sinSqSigma := (cosU2 * sinLam) * (cosU2 * sinLam) +
      (cosU1 * sinU2 - sinU1 * cosU2 * cosLam) * (cosU1 * sinU2 - sinU1 * cosU2 * cosLam)
    if |sinSqSigma| < machineEps then some (st, false)
    else
      let sinSigma := ops.sqrt sinSqSigma
      let cosSigma := sinU1 * sinU2 + cosU1 * cosU2 * cosLam
      let sigma := ops.atan2 sinSigma cosSigma
      let sinAlpha := cosU1 * cosU2 * sinLam / sinSigma
      let cosSqAlpha := 1 - sinAlpha * sinAlpha
      let cos2SigmaM := if cosSqAlpha ≠ 0 then cosSigma - 2 * sinU1 * sinU2 / cosSqAlpha else 0
      let C := f / 16 * cosSqAlpha * (4 + f * (4 - 3 * cosSqAlpha))
      let lamNew := L + (1 - C) * f * sinAlpha *
        (sigma + C * sinSigma * (cos2SigmaM + C * cosSigma * (-1 + 2 * cos2SigmaM * cos2SigmaM)))
      let st' : VState := ⟨lamNew, sinSigma, cosSigma, sigma, cos2SigmaM, cosSqAlpha⟩
      let iterationCheck := if isAntipodal then |lamNew| - piF else |lamNew|
      if iterationCheck > piF then none
      else if |lamNew - st.lam| ≤ 1 / 10 ^ 12 ∨ fuel = 0 then some (st', decide (fuel = 0))
      else vincentyIter ops L f cosU1 sinU1 cosU2 sinU2 isAntipodal fuel st'

/-- The setup and loop of `VincentyInverse` for a non-coincident pair: reduced
latitudes, the antipodal flag, the initial state, and the 1000-iteration run. -/
def vincentySolve (ops : RealOps) (ell : Ellipsoid) (llv dest : LatLon) :
    Option (VState × Bool) :=
  let phi1 := Radians llv.Latitude
  let lam1 := Radians llv.Longitude
  let phi2 := Radians dest.Latitude
  let lam2 := Radians dest.Longitude
  let L := lam2 - lam1
  let tanU1 := (1 - ell.f) * ops.tan phi1
  let cosU1 := 1 / ops.sqrt (1 + tanU1 * tanU1)
  let sinU1 := tanU1 * cosU1
  let tanU2 := (1 - ell.f) * ops.tan phi2
  let cosU2 := 1 / ops.sqrt (1 + tanU2 * tanU2)
  let sinU2 := tanU2 * cosU2
  let isAntipodal := decide (|L| > piF / 2 ∨ |phi2 - phi1| > piF / 2)
  let st0 : VState :=
    { lam := L, sinSigma := 0, cosSigma := if isAntipodal then -1 else 1,
      sigma := if isAntipodal then piF else 0, cos2SigmaM := 1, cosSqAlpha := 1 }
  vincentyIter ops L ell.f cosU1 sinU1 cosU2 sinU2 isAntipodal 1000 st0

/-- The geodesic length `s = b·A·(σ−Δσ)` assembled after the loop
(latlon_ellipsodial_vincenty.go lines 236–242). -/
def vincentyLength (ell : Ellipsoid) (st : VState) : ℚ :=
  let uSq := st.cosSqAlpha * (ell.a * ell.a - ell.b * ell.b) / (ell.b * ell.b)
  let A := 1 + uSq / 16384 * (4096 + uSq * (-768 + uSq * (320 - 175 * uSq)))
  let B := uSq / 1024 * (256 + uSq * (-128 + uSq * (74 - 47 * uSq)))
  let dSigma := B * st.sinSigma * (st.cos2SigmaM + B / 4 * (st.cosSigma *
    (-1 + 2 * st.cos2SigmaM * st.cos2SigmaM) - B / 6 * st.cos2SigmaM *
    (-3 + 4 * st.sinSigma * st.sinSigma) * (-3 + 4 * st.cos2SigmaM * st.cos2SigmaM)))
  ell.b * A * (st.sigma - dSigma)

/-- The distance component of `VincentyInverse`
(latlon_ellipsodial_vincenty.go lines 153–264): `none` models the
`units.Metre(math.NaN())` returns — for coincident (`Equals`) points, for a
λ-iterate drifting past π, and for 1000 iterations without convergence. -/
def VincentyInverseDistance (ops : RealOps) (ell : Ellipsoid) (llv dest : LatLon) : Option ℚ :=
  if llv.Equals dest then none
  else
    match vincentySolve ops ell llv dest with
    | none => none
    | some (st, exhausted) => if exhausted then none else some (vincentyLength ell st)

/-- `LatLonEllipsoidalVincenty.DistanceTo` (lines 280–283): the distance of the
Vincenty inverse calculation. -/
def VincentyDistanceTo (ops : RealOps) (ell : Ellipsoid) (llv dest : LatLon) : Option ℚ :=
  VincentyInverseDistance ops ell llv dest

/-- `utils.SegmentError` (densify.go lines 192–212): zero for equal longitudes,
otherwise the model-measured distance between the model midpoint (with a
computed longitude of −180 normalized to +180) and the reference midpoint. -/
def SegmentError (p0 p1 : Point) (M R : EarthModel) : ℚ :=
  if p0.lon = p1.lon then 0
  else
    let ll0 := pointToLatLon p0
    let ll1 := pointToLatLon p1
    let llMid := IntermediatePoint ll0 ll1 (1/2) M
    let llMid' := if llMid.Longitude = -180 then { llMid with Longitude := 180 } else llMid
    let llRef := IntermediatePoint ll0 ll1 (1/2) R
    Distance llMid' llRef M

/-- An error value the densify loops treat as soft: absent, or `ErrToleranceTooLow`. -/
def softErr (e : Option DensifyErr) : Prop := e = none ∨ e = some .toleranceTooLow

/-- A point list that starts at `pf` and ends at `pt` with at least two entries. -/
def sandwiched (pf pt : Point) (ps : List Point) : Prop := ∃ mid, ps = pf :: (mid ++ [pt])

/-- The acceptance test a pair of adjacent points faces when it is densified as
a top-level segment: the model/reference midpoint discrepancy is within
tolerance. -/
def midOK (M R : EarthModel) (tol : ℚ) (a b : Point) : Prop :=
  Distance (IntermediatePoint (pointToLatLon a) (pointToLatLon b) (1/2) M)
    (IntermediatePoint (pointToLatLon a) (pointToLatLon b) (1/2) R) M ≤ tol

/-- Midpoint consistency of a model's interpolation: interpolating halfway
between two interpolated points of a segment is interpolating the segment at
the averaged fraction, and fractions 0 and 1 give back the endpoints.  The
geodesic and rhumb interpolations have this property in exact arithmetic. -/
def MidpointConsistent (M : EarthModel) : Prop :=
  (∀ a b f g, M.intermediatePointTo (M.intermediatePointTo a b f)
      (M.intermediatePointTo a b g) (1/2) = M.intermediatePointTo a b ((f + g) / 2))
  ∧ (∀ a b, M.intermediatePointTo a b 0 = a)
  ∧ (∀ a b, M.intermediatePointTo a b 1 = b)

/-- Linear interpolation of latitude and longitude in degree space — the
`IntermediatePointTo` of a flat model; midpoint-consistent in exact
arithmetic. -/
def linearIp (a b : LatLon) (f : ℚ) : LatLon :=
  ⟨a.Latitude + f * (b.Latitude - a.Latitude), a.Longitude + f * (b.Longitude - a.Longitude)⟩

/-- Membership in a list of rationals, as a directly computable Boolean. -/
def memRat : List ℚ → ℚ → Bool
  | [], _ => false
  | x :: rest, q => if q = x then true else memRat rest q

/-- A model that interpolates linearly and measures zero distance everywhere:
every densification accepts immediately. -/
def zeroDistModel : EarthModel := ⟨linearIp, fun _ _ => 0⟩

/-- The midpoint latitudes 2, 1, 1/2, …, 2⁻¹³ of the left spine of the probe
segment (0,0)–(0,4): each bisection of the leading sub-segment lands on the
next entry. -/
def powerLats : List ℚ :=
  [2, 1, 1/2, 1/4, 1/8, 1/16, 1/32, 1/64, 1/128, 1/256, 1/512, 1/1024, 1/2048, 1/4096, 1/8192]

/-- A midpoint-consistent model whose measured error is 5 metres exactly when
the measured midpoint latitude is one of `powerLats`, 0 otherwise: densifying
the segment (0,0)–(0,4) exhausts the recursion ceiling along its left spine. -/
def powerLatModel : EarthModel :=
  ⟨linearIp, fun a _ => if memRat powerLats a.Latitude then 5 else 0⟩

/-- The two-point ring used to probe re-densification. -/
def probeRing : List Point := [⟨0, 0⟩, ⟨0, 4⟩]

/-- A model whose interpolation encodes the fraction in the latitude and whose
distance is 5 metres exactly at the half-way fraction: the very first
densification test fails, the deeper ones pass. -/
def fractionProbeModel : EarthModel :=
  ⟨fun _ _ f => ⟨f, 0⟩, fun a _ => if a.Latitude = 1/2 then 5 else 0⟩

/-- A reference model that always answers with the sub-segment's start point. -/
def leftEndpointModel : EarthModel := ⟨fun a _ _ => a, fun _ _ => 0⟩

/-- A model whose half-way interpolation lands exactly on longitude −180 and
whose distance measures the longitude gap: it distinguishes a −180 midpoint
from a +180 midpoint. -/
def antimeridianProbeModel : EarthModel :=
  ⟨fun _ _ f => if f = 1/2 then ⟨0, -180⟩ else ⟨0, 180⟩,
   fun a b => |a.Longitude - b.Longitude|⟩

/-- A reference model that always answers longitude +180 (latitude 0). -/
def plus180Model : EarthModel := ⟨fun _ _ _ => ⟨0, 180⟩, fun _ _ => 0⟩

/-- Transcendental operations that are identically zero; with them the
Vincenty loop converges on its first iteration for any non-coincident pair. -/
def zeroOps : RealOps := ⟨fun _ => 0, fun _ => 0, fun _ => 0, fun _ _ => 0, fun _ => 0⟩

end Geod

namespace Geod

theorem pointToLatLon_latLonToPoint (l : LatLon) : pointToLatLon (latLonToPoint l) = l := rfl

theorem latLonToPoint_pointToLatLon (p : Point) : latLonToPoint (pointToLatLon p) = p := rfl

theorem softErr_not_hard {e : Option DensifyErr} (h : softErr e) : isHardErr e = false := by
  rcases h with rfl | rfl <;> rfl

theorem softErr_none : softErr none := Or.inl rfl

theorem accumErr_soft (a b : Option DensifyErr) : softErr (accumErr a b) := by
  unfold accumErr; split
  · exact Or.inr rfl
  · exact Or.inl rfl

theorem accumErr_eq_none {a b : Option DensifyErr} (ha : softErr a) (hb : softErr b) :
    accumErr a b = none ↔ a = none ∧ b = none := by
  rcases ha with rfl | rfl <;> rcases hb with rfl | rfl <;> simp [accumErr]

theorem accumErr_none_none : accumErr none none = none := rfl

theorem densifyMerge_of_soft {a b : List Point × Option DensifyErr}
    (ha : softErr a.2) (hb : softErr b.2) :
    densifyMerge a b = (a.1 ++ b.1.drop 1, accumErr a.2 b.2) := by
  simp [densifyMerge, softErr_not_hard ha, softErr_not_hard hb]

theorem sandwiched_two (pf pt : Point) : sandwiched pf pt [pf, pt] := ⟨[], rfl⟩

theorem sandwiched_append {pf m pt : Point} {a b : List Point}
    (ha : sandwiched pf m a) (hb : sandwiched m pt b) :
    sandwiched pf pt (a ++ b.drop 1) := by
  obtain ⟨u, rfl⟩ := ha
  obtain ⟨v, rfl⟩ := hb
  exact ⟨u ++ [m] ++ v, by simp⟩

theorem sandwiched_length {pf pt : Point} {ps : List Point} (h : sandwiched pf pt ps) :
    2 ≤ ps.length := by
  obtain ⟨u, rfl⟩ := h
  simp

theorem sandwiched_head {pf pt : Point} {ps : List Point} (h : sandwiched pf pt ps) :
    ps.head? = some pf := by
  obtain ⟨u, rfl⟩ := h; rfl

theorem sandwiched_getLast {pf pt : Point} {ps : List Point} (h : sandwiched pf pt ps) :
    ps.getLast? = some pt := by
  obtain ⟨u, rfl⟩ := h
  rw [show pf :: (u ++ [pt]) = (pf :: u) ++ [pt] by simp, List.getLast?_concat]

theorem sandwiched_cons_tail {pf pt : Point} {ps : List Point} (h : sandwiched pf pt ps) :
    ps = pf :: ps.tail := by
  obtain ⟨u, rfl⟩ := h; rfl

theorem densifySegment_soft (M R : EarthModel) (tol : ℚ) :
    ∀ (d : Nat) (ll0 ll1 : LatLon) (pf pt : Point) (f t : ℚ),
      softErr (densifySegment ll0 ll1 pf pt f t M R tol d).2 := by
  intro d
  induction d with
  | zero =>
    intro ll0 ll1 pf pt f t
    simp only [densifySegment]
    split
    · exact softErr_none
    · exact Or.inr rfl
  | succ d ih =>
    intro ll0 ll1 pf pt f t
    simp only [densifySegment]
    split
    · exact softErr_none
    · split
      · exact Or.inr rfl
      · rw [densifyMerge_of_soft (ih _ _ _ _ _ _) (ih _ _ _ _ _ _)]
        exact accumErr_soft _ _

theorem densifySegment_sandwiched (M R : EarthModel) (tol : ℚ) :
    ∀ (d : Nat) (ll0 ll1 : LatLon) (pf pt : Point) (f t : ℚ),
      sandwiched pf pt (densifySegment ll0 ll1 pf pt f t M R tol d).1 := by
  intro d
  induction d with
  | zero =>
    intro ll0 ll1 pf pt f t
    simp only [densifySegment]
    split
    · exact sandwiched_two _ _
    · exact sandwiched_two _ _
  | succ d ih =>
    intro ll0 ll1 pf pt f t
    simp only [densifySegment]
    split
    · exact sandwiched_two _ _
    · split
      · exact sandwiched_two _ _
      · rw [densifyMerge_of_soft (densifySegment_soft M R tol d _ _ _ _ _ _)
          (densifySegment_soft M R tol d _ _ _ _ _ _)]
        exact sandwiched_append (ih _ _ _ _ _ _) (ih _ _ _ _ _ _)

theorem densifySegment_length (M R : EarthModel) (tol : ℚ) :
    ∀ (d : Nat) (ll0 ll1 : LatLon) (pf pt : Point) (f t : ℚ),
      (densifySegment ll0 ll1 pf pt f t M R tol d).1.length ≤ 2 ^ (d - 1) + 1 := by
  intro d
  induction d with
  | zero =>
    intro ll0 ll1 pf pt f t
    simp only [densifySegment]
    split <;> simp
  | succ d ih =>
    intro ll0 ll1 pf pt f t
    simp only [densifySegment]
    split
    · simp [Nat.one_le_two_pow]
    · split
      · simp [Nat.one_le_two_pow]
      · rw [densifyMerge_of_soft (densifySegment_soft M R tol d _ _ _ _ _ _)
          (densifySegment_soft M R tol d _ _ _ _ _ _)]
        have hd : d ≠ 0 := by assumption
        have hpow : 2 ^ (d - 1) + 2 ^ (d - 1) = 2 ^ d := by
          obtain ⟨e, rfl⟩ := Nat.exists_eq_succ_of_ne_zero hd
          simp [Nat.succ_sub_one, pow_succ, Nat.mul_two]
        simp only [List.length_append, List.length_drop, Nat.add_sub_cancel]
        rw [← hpow]
        have key : ∀ x y A : ℕ, x ≤ A + 1 → y ≤ A + 1 → x + (y - 1) ≤ A + A + 1 := by
          intro x y A hx hy; omega
        exact key _ _ _ (ih _ _ _ _ _ _) (ih _ _ _ _ _ _)

theorem chain_sandwich_append {p : Point → Point → Prop} {pf m pt : Point} {a b : List Point}
    (ha : sandwiched pf m a) (hb : sandwiched m pt b)
    (ca : List.Chain' p a) (cb : List.Chain' p b) :
    List.Chain' p (a ++ b.drop 1) := by
  obtain ⟨u, rfl⟩ := ha
  obtain ⟨v, rfl⟩ := hb
  rw [List.chain'_append]
  refine ⟨ca, (List.chain'_cons'.mp cb).2, ?_⟩
  intro x hx y hy
  have hxm : x = m := by
    rw [show pf :: (u ++ [m]) = (pf :: u) ++ [m] by simp, List.getLast?_concat] at hx
    exact (Option.mem_some_iff.mp hx).symm
  subst hxm
  exact (List.chain'_cons'.mp cb).1 y hy

theorem midOK_of_measure {M R : EarthModel} {tol : ℚ} {ll0 ll1 : LatLon} {pf pt : Point}
    {f t : ℚ} (hM : MidpointConsistent M)
    (hpf : pointToLatLon pf = M.intermediatePointTo ll0 ll1 f)
    (hpt : pointToLatLon pt = M.intermediatePointTo ll0 ll1 t)
    (he : Distance (IntermediatePoint ll0 ll1 ((f + t) / 2) M)
      (IntermediatePoint (pointToLatLon pf) (pointToLatLon pt) (1/2) R) M ≤ tol) :
    midOK M R tol pf pt := by
  unfold midOK
  have hmid : IntermediatePoint (pointToLatLon pf) (pointToLatLon pt) (1/2) M
      = IntermediatePoint ll0 ll1 ((f + t) / 2) M := by
    simp only [IntermediatePoint]
    rw [hpf, hpt]
    exact hM.1 ll0 ll1 f t
  rw [hmid]
  exact he

theorem densifySegment_chain (M R : EarthModel) (tol : ℚ) (hM : MidpointConsistent M) :
    ∀ (d : Nat) (ll0 ll1 : LatLon) (pf pt : Point) (f t : ℚ),
      pointToLatLon pf = M.intermediatePointTo ll0 ll1 f →
      pointToLatLon pt = M.intermediatePointTo ll0 ll1 t →
      (densifySegment ll0 ll1 pf pt f t M R tol d).2 = none →
      List.Chain' (midOK M R tol) (densifySegment ll0 ll1 pf pt f t M R tol d).1 := by
  intro d
  induction d with
  | zero =>
    intro ll0 ll1 pf pt f t hpf hpt herr
    revert herr
    simp only [densifySegment]
    split
    · intro _
      rw [List.chain'_pair]
      exact midOK_of_measure hM hpf hpt (by assumption)
    · intro h
      simp at h
  | succ d ih =>
    intro ll0 ll1 pf pt f t hpf hpt herr
    revert herr
    simp only [densifySegment]
    split
    · intro _
      rw [List.chain'_pair]
      exact midOK_of_measure hM hpf hpt (by assumption)
    · split
      · intro h
        simp at h
      · intro herr
        have hsl := densifySegment_soft M R tol d ll0 ll1 pf
          (latLonToPoint (IntermediatePoint ll0 ll1 ((f + t) / 2) M)) f ((f + t) / 2)
        have hsr := densifySegment_soft M R tol d ll0 ll1
          (latLonToPoint (IntermediatePoint ll0 ll1 ((f + t) / 2) M)) pt ((f + t) / 2) t
        rw [densifyMerge_of_soft hsl hsr] at herr ⊢
        have hboth := (accumErr_eq_none hsl hsr).mp herr
        have hmid : pointToLatLon (latLonToPoint (IntermediatePoint ll0 ll1 ((f + t) / 2) M))
            = M.intermediatePointTo ll0 ll1 ((f + t) / 2) := rfl
        exact chain_sandwich_append
          (densifySegment_sandwiched M R tol d _ _ _ _ _ _)
          (densifySegment_sandwiched M R tol d _ _ _ _ _ _)
          (ih _ _ _ _ _ _ hpf hmid hboth.1)
          (ih _ _ _ _ _ _ hmid hpt hboth.2)

theorem DensifySegment_soft {M R : EarthModel} {tol : ℚ} (p0 p1 : Point) (h : 0 < tol) :
    softErr (DensifySegment p0 p1 M R tol).2 := by
  unfold DensifySegment
  rw [if_neg (by linarith)]
  exact densifySegment_soft M R tol 15 _ _ _ _ _ _

theorem DensifySegment_sandwiched {M R : EarthModel} {tol : ℚ} (p0 p1 : Point) (h : 0 < tol) :
    sandwiched p0 p1 (DensifySegment p0 p1 M R tol).1 := by
  unfold DensifySegment
  rw [if_neg (by linarith)]
  exact densifySegment_sandwiched M R tol 15 _ _ _ _ _ _

theorem DensifySegment_chain {M R : EarthModel} {tol : ℚ} (hM : MidpointConsistent M)
    (p0 p1 : Point) (h : 0 < tol) (herr : (DensifySegment p0 p1 M R tol).2 = none) :
    List.Chain' (midOK M R tol) (DensifySegment p0 p1 M R tol).1 := by
  unfold DensifySegment at herr ⊢
  rw [if_neg (by linarith)] at herr ⊢
  exact densifySegment_chain M R tol hM 15 _ _ _ _ _ _
    (hM.2.1 _ _).symm (hM.2.2 _ _).symm herr

theorem densifySegment_accept_all (M R : EarthModel) (tol : ℚ) :
    ∀ (d : Nat) (ll0 ll1 : LatLon) (pf pt : Point) (f t : ℚ),
      Distance (IntermediatePoint ll0 ll1 ((f + t) / 2) M)
        (IntermediatePoint (pointToLatLon pf) (pointToLatLon pt) (1/2) R) M ≤ tol →
      densifySegment ll0 ll1 pf pt f t M R tol d = ([pf, pt], none) := by
  intro d ll0 ll1 pf pt f t he
  cases d with
  | zero => simp only [densifySegment]; rw [if_pos he]
  | succ d => simp only [densifySegment]; rw [if_pos he]

theorem DensifySegment_accept {M R : EarthModel} {tol : ℚ} {a b : Point}
    (htol : 0 < tol) (hab : midOK M R tol a b) :
    DensifySegment a b M R tol = ([a, b], none) := by
  unfold DensifySegment
  rw [if_neg (by linarith)]
  refine densifySegment_accept_all M R tol 15 _ _ _ _ _ _ ?_
  rw [show ((0:ℚ) + 1) / 2 = 1/2 by norm_num]
  exact hab

theorem densifyRingLoop_nil (M R : EarthModel) (tol : ℚ) (prev : Point) :
    densifyRingLoop M R tol prev [] = ([], none) := rfl

theorem densifyRingLoop_cons_soft {M R : EarthModel} {tol : ℚ} {prev x : Point}
    {rest : List Point}
    (hs : softErr (DensifySegment prev x M R tol).2)
    (hlen : 1 < (DensifySegment prev x M R tol).1.length)
    (hr : softErr (densifyRingLoop M R tol x rest).2) :
    densifyRingLoop M R tol prev (x :: rest)
      = ((DensifySegment prev x M R tol).1.drop 1 ++ (densifyRingLoop M R tol x rest).1,
         accumErr (DensifySegment prev x M R tol).2 (densifyRingLoop M R tol x rest).2) := by
  simp only [densifyRingLoop, softErr_not_hard hs, softErr_not_hard hr, Bool.false_eq_true,
    if_false, if_pos hlen]

theorem densifyRingLoop_soft (M R : EarthModel) {tol : ℚ} (htol : 0 < tol) :
    ∀ (targets : List Point) (prev : Point),
      softErr (densifyRingLoop M R tol prev targets).2 := by
  intro targets
  induction targets with
  | nil => intro prev; exact softErr_none
  | cons x rest ih =>
    intro prev
    have hs := DensifySegment_soft (M := M) (R := R) prev x htol
    have hlen : 1 < (DensifySegment prev x M R tol).1.length :=
      sandwiched_length (DensifySegment_sandwiched prev x htol)
    rw [densifyRingLoop_cons_soft hs hlen (ih x)]
    exact accumErr_soft _ _

/-- If the loop finishes without error, the densified tail forms a chain of
in-tolerance segments from `prev`, ends where the targets end, and is nonempty
whenever there was a target. -/
theorem densifyRingLoop_none (M R : EarthModel) {tol : ℚ} (hM : MidpointConsistent M)
    (htol : 0 < tol) :
    ∀ (targets : List Point) (prev : Point),
      (densifyRingLoop M R tol prev targets).2 = none →
      List.Chain' (midOK M R tol) (prev :: (densifyRingLoop M R tol prev targets).1)
      ∧ (prev :: (densifyRingLoop M R tol prev targets).1).getLast? = (prev :: targets).getLast?
      ∧ (targets ≠ [] → (densifyRingLoop M R tol prev targets).1 ≠ []) := by
  intro targets
  induction targets with
  | nil =>
    intro prev _
    refine ⟨List.chain'_singleton _, rfl, ?_⟩
    intro h; exact absurd rfl h
  | cons x rest ih =>
    intro prev herr
    have hs := DensifySegment_soft (M := M) (R := R) prev x htol
    have hsw := DensifySegment_sandwiched (M := M) (R := R) prev x htol
    have hlen : 1 < (DensifySegment prev x M R tol).1.length := sandwiched_length hsw
    have hrs := densifyRingLoop_soft M R htol rest x
    rw [densifyRingLoop_cons_soft hs hlen hrs] at herr ⊢
    have hboth := (accumErr_eq_none hs hrs).mp herr
    obtain ⟨hchain, hlast, _⟩ := ih x hboth.2
    have hseg : List.Chain' (midOK M R tol) (DensifySegment prev x M R tol).1 :=
      DensifySegment_chain hM prev x htol hboth.1
    have hcons : prev :: ((DensifySegment prev x M R tol).1.drop 1
        ++ (densifyRingLoop M R tol x rest).1)
        = (DensifySegment prev x M R tol).1 ++ (densifyRingLoop M R tol x rest).1 := by
      conv_rhs => rw [sandwiched_cons_tail hsw]
      simp [List.drop_one]
    refine ⟨?_, ?_, ?_⟩
    · rw [hcons]
      rw [List.chain'_append]
      refine ⟨hseg, (List.chain'_cons'.mp hchain).2, ?_⟩
      intro a ha y hy
      have hax : a = x := by
        rw [sandwiched_getLast hsw] at ha
        exact (Option.mem_some_iff.mp ha).symm
      subst hax
      exact (List.chain'_cons'.mp hchain).1 y hy
    · rw [hcons]
      cases hrl : (densifyRingLoop M R tol x rest).1 with
      | nil =>
        rw [hrl] at hlast
        simp only [List.getLast?_cons_cons]
        rw [List.append_nil]
        rw [sandwiched_getLast hsw]
        simpa using hlast
      | cons y ys =>
        rw [hrl] at hlast
        simp only [List.getLast?_cons_cons] at hlast ⊢
        rw [List.getLast?_append_of_ne_nil _ (by simp)]
        exact hlast
    · intro _
      intro hnil
      have h2 := sandwiched_length hsw
      have : (DensifySegment prev x M R tol).1.drop 1 = [] ∧
          (densifyRingLoop M R tol x rest).1 = [] := List.append_eq_nil.mp hnil
      have := congrArg List.length this.1
      simp only [List.length_drop, List.length_nil] at this
      omega

/-- If every adjacent pair of the target list (from `prev`) is within
tolerance, the loop reproduces the targets exactly, with no error. -/
theorem densifyRingLoop_accept (M R : EarthModel) {tol : ℚ} (htol : 0 < tol) :
    ∀ (targets : List Point) (prev : Point),
      List.Chain' (midOK M R tol) (prev :: targets) →
      densifyRingLoop M R tol prev targets = (targets, none) := by
  intro targets
  induction targets with
  | nil => intro prev _; rfl
  | cons x rest ih =>
    intro prev hchain
    have hpx : midOK M R tol prev x := (List.chain'_cons.mp hchain).1
    have hseg := DensifySegment_accept htol hpx
    have hr := ih x (List.chain'_cons.mp hchain).2
    have hs : softErr (DensifySegment prev x M R tol).2 := by rw [hseg]; exact softErr_none
    have hlen : 1 < (DensifySegment prev x M R tol).1.length := by rw [hseg]; simp
    rw [densifyRingLoop_cons_soft hs hlen (by rw [hr]; exact softErr_none)]
    rw [hseg, hr]
    rfl

theorem softErr_of_not_hard {e : Option DensifyErr} (h : isHardErr e = false) : softErr e := by
  cases e with
  | none => exact softErr_none
  | some v => cases v <;> simp_all [isHardErr, softErr]

theorem ringFinish_snd (p0 : Point) (r : List Point × Option DensifyErr) :
    (ringFinish p0 r).2 = r.2 := by
  unfold ringFinish; split <;> rfl

theorem ringFinish_of_soft {p0 : Point} {r : List Point × Option DensifyErr}
    (h : softErr r.2) : ringFinish p0 r = (p0 :: r.1, r.2) := by
  unfold ringFinish
  rw [softErr_not_hard h]
  simp

theorem DensifyRing_soft {M R : EarthModel} {tol : ℚ} (htol : 0 < tol)
    (ring : List Point) (hlen : 2 ≤ ring.length) : softErr (DensifyRing ring M R tol).2 := by
  cases ring with
  | nil => simp at hlen
  | cons p0 tail =>
    cases tail with
    | nil => simp at hlen
    | cons p1 rest =>
      simp only [DensifyRing]
      rw [ringFinish_snd]
      exact densifyRingLoop_soft M R htol _ _

theorem densifyRingLoop_no_internal (M R : EarthModel) (tol : ℚ) :
    ∀ (targets : List Point) (prev : Point),
      (densifyRingLoop M R tol prev targets).2 ≠ some .internalError := by
  by_cases htol : 0 < tol
  · intro targets prev
    rcases densifyRingLoop_soft M R htol targets prev with h | h <;> rw [h] <;> simp
  · intro targets prev
    cases targets with
    | nil => simp [densifyRingLoop]
    | cons x rest =>
      have hseg : DensifySegment prev x M R tol = ([], some .invalidTolerance) := by
        unfold DensifySegment
        rw [if_pos (by linarith)]
      simp [densifyRingLoop, hseg, isHardErr]

theorem DensifyRing_no_internal (ring : List Point) (M R : EarthModel) (tol : ℚ) :
    (DensifyRing ring M R tol).2 ≠ some .internalError := by
  cases ring with
  | nil => simp [DensifyRing]
  | cons p0 tail =>
    cases tail with
    | nil => simp [DensifyRing]
    | cons p1 rest =>
      simp only [DensifyRing]
      rw [ringFinish_snd]
      exact densifyRingLoop_no_internal M R tol _ _

theorem ringFinish_hard_nil {p0 : Point} {r : List Point × Option DensifyErr} {e : DensifyErr}
    (h : (ringFinish p0 r).2 = some e) (he : e ≠ .toleranceTooLow) :
    (ringFinish p0 r).1 = [] := by
  cases hh : isHardErr r.2 with
  | true => simp [ringFinish, hh]
  | false =>
    simp only [ringFinish, hh, Bool.false_eq_true, if_false] at h
    rcases softErr_of_not_hard hh with hn | hn
    · rw [hn] at h; simp at h
    · rw [hn] at h
      exact absurd (Option.some.inj h).symm he

theorem DensifyRing_hard_nil {M R : EarthModel} {tol : ℚ} {ring : List Point} {e : DensifyErr}
    (h : (DensifyRing ring M R tol).2 = some e) (he : e ≠ .toleranceTooLow) :
    (DensifyRing ring M R tol).1 = [] := by
  cases ring with
  | nil => rfl
  | cons p0 tail =>
    cases tail with
    | nil => rfl
    | cons p1 rest =>
      simp only [DensifyRing] at h ⊢
      exact ringFinish_hard_nil h he

theorem DensifyRing_none {M R : EarthModel} {tol : ℚ} (hM : MidpointConsistent M)
    (htol : 0 < tol) {ring dr : List Point} (h : DensifyRing ring M R tol = (dr, none)) :
    List.Chain' (midOK M R tol) dr
    ∧ ∃ (p0 : Point) (t0 : List Point), dr = p0 :: t0 ∧ t0 ≠ [] ∧ dr.getLast? = some p0 := by
  cases ring with
  | nil => simp [DensifyRing] at h
  | cons p0 tail =>
    cases tail with
    | nil => simp [DensifyRing] at h
    | cons p1 rest =>
      simp only [DensifyRing] at h
      by_cases hc : p0 = (p0 :: p1 :: rest).getLast (List.cons_ne_nil _ _)
      · rw [if_pos hc] at h
        rw [ringFinish_of_soft (densifyRingLoop_soft M R htol _ _)] at h
        rw [Prod.ext_iff] at h
        obtain ⟨hdr, herr⟩ := h
        obtain ⟨hchain, hlast, hne⟩ := densifyRingLoop_none M R hM htol (p1 :: rest) p0 herr
        subst hdr
        refine ⟨hchain, p0, _, rfl, hne (by simp), ?_⟩
        rw [hlast, List.getLast?_eq_getLast _ (List.cons_ne_nil _ _), ← hc]
      · rw [if_neg hc] at h
        rw [ringFinish_of_soft (densifyRingLoop_soft M R htol _ _)] at h
        rw [Prod.ext_iff] at h
        obtain ⟨hdr, herr⟩ := h
        obtain ⟨hchain, hlast, hne⟩ := densifyRingLoop_none M R hM htol ((p1 :: rest) ++ [p0]) p0 herr
        subst hdr
        refine ⟨hchain, p0, _, rfl, hne (by simp), ?_⟩
        rw [hlast, show p0 :: ((p1 :: rest) ++ [p0]) = (p0 :: p1 :: rest) ++ [p0] by simp,
          List.getLast?_concat]

/-- Re-densifying the error-free output of `DensifyRing` reproduces it exactly. -/
theorem DensifyRing_redensify {M R : EarthModel} {tol : ℚ} (hM : MidpointConsistent M)
    (htol : 0 < tol) {ring dr : List Point} (h : DensifyRing ring M R tol = (dr, none)) :
    DensifyRing dr M R tol = (dr, none) := by
  obtain ⟨hchain, p0, t0, rfl, ht0, hlast⟩ := DensifyRing_none hM htol h
  cases t0 with
  | nil => exact absurd rfl ht0
  | cons p1 rest =>
    simp only [DensifyRing]
    have hc : p0 = (p0 :: p1 :: rest).getLast (List.cons_ne_nil _ _) := by
      rw [List.getLast?_eq_getLast _ (List.cons_ne_nil _ _)] at hlast
      exact (Option.some.inj hlast).symm
    rw [if_pos hc]
    rw [densifyRingLoop_accept M R htol (p1 :: rest) p0 hchain]
    rw [ringFinish_of_soft softErr_none]

theorem densifyListLoop_eq {α β : Type} (step : α → β × Option DensifyErr) :
    ∀ xs : List α, (∀ x ∈ xs, softErr (step x).2) →
      densifyListLoop step xs
        = (xs.map fun x => (step x).1,
           if ∃ x ∈ xs, (step x).2 = some .toleranceTooLow
             then some .toleranceTooLow else none) := by
  intro xs
  induction xs with
  | nil => intro _; simp [densifyListLoop]
  | cons x rest ih =>
    intro hsoft
    have hx := hsoft x (by simp)
    have hrest := ih (fun y hy => hsoft y (by simp [hy]))
    simp only [densifyListLoop]
    rw [hrest]
    rcases hx with hn | hn <;>
      by_cases hex : ∃ y ∈ rest, (step y).2 = some DensifyErr.toleranceTooLow <;>
      simp [hn, hex, isHardErr, accumErr]

theorem densifyListLoop_hard_nil {α β : Type} (step : α → β × Option DensifyErr) :
    ∀ (xs : List α) (e : DensifyErr), (densifyListLoop step xs).2 = some e →
      e ≠ .toleranceTooLow → (densifyListLoop step xs).1 = [] := by
  intro xs
  induction xs with
  | nil => intro e h _; simp [densifyListLoop] at h
  | cons x rest ih =>
    intro e h he
    simp only [densifyListLoop] at h ⊢
    cases hh : isHardErr (step x).2 with
    | true => simp [hh]
    | false =>
      cases hh2 : isHardErr (densifyListLoop step rest).2 with
      | true => simp [hh, hh2]
      | false =>
        simp only [hh, hh2, Bool.false_eq_true, if_false] at h
        rcases accumErr_soft (step x).2 (densifyListLoop step rest).2 with hn | hn
        · rw [hn] at h; simp at h
        · rw [hn] at h
          exact absurd (Option.some.inj h).symm he

theorem DensifySegment_length (p0 p1 : Point) (M R : EarthModel) (tol : ℚ) :
    (DensifySegment p0 p1 M R tol).1.length ≤ 2 ^ 14 + 1 := by
  unfold DensifySegment
  split
  · simp
  · exact densifySegment_length M R tol 15 _ _ _ _ _ _

theorem zeroDistModel_consistent : MidpointConsistent zeroDistModel := by
  refine ⟨?_, ?_, ?_⟩
  · intro a b f g
    show linearIp (linearIp a b f) (linearIp a b g) (1/2) = linearIp a b ((f + g) / 2)
    unfold linearIp
    rw [LatLon.mk.injEq]
    constructor <;> ring
  · intro a b
    show linearIp a b 0 = a
    simp [linearIp]
  · intro a b
    show linearIp a b 1 = b
    unfold linearIp
    have h1 : ∀ x y : ℚ, x + 1 * (y - x) = y := by intro x y; ring
    rw [h1, h1]

/-- C1: for a positive tolerance and well-formed rings, the densify functions
process every polygon, ring and edge: the multipolygon result is the list of
per-polygon results and each polygon result the list of per-ring results
(best-effort result for every part); the only error that can come back is
`ErrToleranceTooLow`, surfaced exactly when some part reported it; and an
error other than `ErrToleranceTooLow` aborts with a `nil` result. -/
theorem claim_C1 (M R : EarthModel) (tol : ℚ) (mp : List (List (List Point)))
    (htol : 0 < tol) (hlen : ∀ poly ∈ mp, ∀ ring ∈ poly, 2 ≤ ring.length) :
    ((DensifyMultiPolygon mp M R tol).1
        = mp.map fun poly => (DensifyPolygon poly M R tol).1)
    ∧ (∀ poly ∈ mp, (DensifyPolygon poly M R tol).1
        = poly.map fun ring => (DensifyRing ring M R tol).1)
    ∧ softErr (DensifyMultiPolygon mp M R tol).2
    ∧ ((DensifyMultiPolygon mp M R tol).2 = some .toleranceTooLow ↔
        ∃ poly ∈ mp, (DensifyPolygon poly M R tol).2 = some .toleranceTooLow)
    ∧ (∀ poly ∈ mp, ((DensifyPolygon poly M R tol).2 = some .toleranceTooLow ↔
        ∃ ring ∈ poly, (DensifyRing ring M R tol).2 = some .toleranceTooLow))
    ∧ (∀ (mp2 : List (List (List Point))) (e : DensifyErr),
        (DensifyMultiPolygon mp2 M R tol).2 = some e → e ≠ .toleranceTooLow →
        (DensifyMultiPolygon mp2 M R tol).1 = [])
    ∧ (∀ (ring2 : List Point) (e : DensifyErr),
        (DensifyRing ring2 M R tol).2 = some e → e ≠ .toleranceTooLow →
        (DensifyRing ring2 M R tol).1 = []) := by
  have hpoly_eq : ∀ poly ∈ mp, DensifyPolygon poly M R tol
      = (poly.map fun ring => (DensifyRing ring M R tol).1,
         if ∃ ring ∈ poly, (DensifyRing ring M R tol).2 = some .toleranceTooLow
           then some .toleranceTooLow else none) := by
    intro poly hp
    exact densifyListLoop_eq _ poly fun ring hr => DensifyRing_soft htol ring (hlen poly hp ring hr)
  have hpoly_soft : ∀ poly ∈ mp, softErr (DensifyPolygon poly M R tol).2 := by
    intro poly hp
    rw [hpoly_eq poly hp]
    dsimp only
    split
    · exact Or.inr rfl
    · exact softErr_none
  have hmp_eq : DensifyMultiPolygon mp M R tol
      = (mp.map fun poly => (DensifyPolygon poly M R tol).1,
         if ∃ poly ∈ mp, (DensifyPolygon poly M R tol).2 = some .toleranceTooLow
           then some .toleranceTooLow else none) :=
    densifyListLoop_eq _ mp hpoly_soft
  refine ⟨?_, ?_, ?_, ?_, ?_, ?_, ?_⟩
  · rw [hmp_eq]
  · intro poly hp; rw [hpoly_eq poly hp]
  · rw [hmp_eq]; dsimp only; split
    · exact Or.inr rfl
    · exact softErr_none
  · rw [hmp_eq]; dsimp only; split
    · rename_i hex; exact iff_of_true rfl hex
    · rename_i hex; exact iff_of_false (by simp) hex
  · intro poly hp; rw [hpoly_eq poly hp]; dsimp only; split
    · rename_i hex; exact iff_of_true rfl hex
    · rename_i hex; exact iff_of_false (by simp) hex
  · intro mp2 e h he
    exact densifyListLoop_hard_nil _ mp2 e h he
  · intro ring2 e h he
    exact DensifyRing_hard_nil h he

theorem claim_C1_witness :
    softErr (DensifyMultiPolygon [[[⟨0, 0⟩, ⟨0, 1⟩]]] zeroDistModel zeroDistModel 1).2
    ∧ (DensifyMultiPolygon [[[⟨0, 0⟩, ⟨0, 1⟩]]] zeroDistModel zeroDistModel 1).1
        = [[(DensifyRing [⟨0, 0⟩, ⟨0, 1⟩] zeroDistModel zeroDistModel 1).1]] := by
  have h := claim_C1 zeroDistModel zeroDistModel 1 [[[⟨0, 0⟩, ⟨0, 1⟩]]]
    (by norm_num) (by simp)
  refine ⟨h.2.2.1, ?_⟩
  have h2 := h.2.1 [[(⟨0, 0⟩ : Point), ⟨0, 1⟩]] (by simp)
  rw [h.1]
  simp [h2]

/-- C2: `DensifySegment` terminates with a usable result for every positive
tolerance: the returned list has at most 2¹⁴ + 1 points, the only possible
error is `ErrToleranceTooLow` (never an outright failure), the deepest
achieved subdivision from `p0` to `p1` is returned even then, and the
recursive worker at remaining depth `d` returns at most 2^(d−1) + 1 points —
the fixed ceiling of 15 bounds the recursion. -/
theorem claim_C2 (M R : EarthModel) (tol : ℚ) (p0 p1 : Point) (htol : 0 < tol) :
    (DensifySegment p0 p1 M R tol).1.length ≤ 2 ^ 14 + 1
    ∧ softErr (DensifySegment p0 p1 M R tol).2
    ∧ sandwiched p0 p1 (DensifySegment p0 p1 M R tol).1
    ∧ ∀ (d : Nat) (ll0 ll1 : LatLon) (pf pt : Point) (f t : ℚ),
        (densifySegment ll0 ll1 pf pt f t M R tol d).1.length ≤ 2 ^ (d - 1) + 1 :=
  ⟨DensifySegment_length p0 p1 M R tol, DensifySegment_soft p0 p1 htol,
   DensifySegment_sandwiched p0 p1 htol, densifySegment_length M R tol⟩

theorem claim_C2_witness :
    (DensifySegment ⟨0, 0⟩ ⟨0, 4⟩ powerLatModel powerLatModel 1).1.length ≤ 2 ^ 14 + 1
    ∧ softErr (DensifySegment ⟨0, 0⟩ ⟨0, 4⟩ powerLatModel powerLatModel 1).2 :=
  ⟨(claim_C2 powerLatModel powerLatModel 1 ⟨0, 0⟩ ⟨0, 4⟩ (by norm_num)).1,
   (claim_C2 powerLatModel powerLatModel 1 ⟨0, 0⟩ ⟨0, 4⟩ (by norm_num)).2.1⟩

/-- C3: a non-positive tolerance makes `DensifySegment` fail hard with
`ErrInvalidTolerance` and no partial result (the recursion is never entered),
and a ring with fewer than 2 points makes `DensifyRing` fail hard with
`ErrInvalidGeometry` and no partial result. -/
theorem claim_C3 (M R : EarthModel) (tol : ℚ) (p0 p1 : Point) (ring : List Point) :
    (tol ≤ 0 → DensifySegment p0 p1 M R tol = ([], some .invalidTolerance))
    ∧ (ring.length < 2 → DensifyRing ring M R tol = ([], some .invalidGeometry)) := by
  constructor
  · intro h
    unfold DensifySegment
    rw [if_pos h]
  · intro h
    cases ring with
    | nil => rfl
    | cons p tail =>
      cases tail with
      | nil => rfl
      | cons q rest => simp only [List.length_cons] at h; omega

theorem claim_C3_witness :
    DensifySegment ⟨0, 0⟩ ⟨0, 1⟩ zeroDistModel zeroDistModel 0 = ([], some .invalidTolerance)
    ∧ DensifyRing [⟨3, 3⟩] zeroDistModel zeroDistModel 1 = ([], some .invalidGeometry) :=
  ⟨(claim_C3 zeroDistModel zeroDistModel 0 ⟨0, 0⟩ ⟨0, 1⟩ [⟨3, 3⟩]).1 (by norm_num),
   (claim_C3 zeroDistModel zeroDistModel 1 ⟨0, 0⟩ ⟨0, 1⟩ [⟨3, 3⟩]).2 (by simp)⟩

/-- C7: for every positive tolerance the recursive densification returns at
least 2 points, starting exactly at the segment's start point and ending
exactly at its end point; consequently `DensifyRing` can never return
`ErrInternalError` (for any tolerance and ring at all). -/
theorem claim_C7 (M R : EarthModel) (tol : ℚ) (p0 p1 : Point) (htol : 0 < tol) :
    2 ≤ (DensifySegment p0 p1 M R tol).1.length
    ∧ (DensifySegment p0 p1 M R tol).1.head? = some p0
    ∧ (DensifySegment p0 p1 M R tol).1.getLast? = some p1
    ∧ ∀ (ring : List Point) (tol2 : ℚ),
        (DensifyRing ring M R tol2).2 ≠ some .internalError := by
  have hsw := DensifySegment_sandwiched (M := M) (R := R) p0 p1 htol
  exact ⟨sandwiched_length hsw, sandwiched_head hsw, sandwiched_getLast hsw,
    fun ring tol2 => DensifyRing_no_internal ring M R tol2⟩

theorem claim_C7_witness :
    (DensifySegment ⟨0, 0⟩ ⟨0, 4⟩ powerLatModel powerLatModel 1).1.head? = some ⟨0, 0⟩
    ∧ (DensifySegment ⟨0, 0⟩ ⟨0, 4⟩ powerLatModel powerLatModel 1).1.getLast? = some ⟨0, 4⟩
    ∧ (DensifyRing [] powerLatModel powerLatModel 1).2 ≠ some .internalError := by
  have h := claim_C7 powerLatModel powerLatModel 1 ⟨0, 0⟩ ⟨0, 4⟩ (by norm_num)
  exact ⟨h.2.1, h.2.2.1, h.2.2.2 [] 1⟩

/-- C4 (amended): re-densifying an already-densified ring with the same
tolerance and models yields the identical ring, provided the first pass
succeeded with NO error (in particular not `ErrToleranceTooLow`) and the
densifying model interpolates midpoint-consistently.  When the first pass
returns `ErrToleranceTooLow`, a second pass starts with a fresh recursion
budget and may subdivide further (see the counterexample). -/
theorem claim_C4 (M R : EarthModel) (tol : ℚ) (ring dr : List Point)
    (hM : MidpointConsistent M) (htol : 0 < tol)
    (h : DensifyRing ring M R tol = (dr, none)) :
    DensifyRing dr M R tol = (dr, none) :=
  DensifyRing_redensify hM htol h

unseal Rat.add Rat.mul Rat.inv Rat.sub in
theorem claim_C4_witness :
    DensifyRing [⟨0, 0⟩, ⟨0, 1⟩, ⟨0, 0⟩] zeroDistModel zeroDistModel 1
      = ([⟨0, 0⟩, ⟨0, 1⟩, ⟨0, 0⟩], none) :=
  claim_C4 zeroDistModel zeroDistModel 1 [⟨0, 0⟩, ⟨0, 1⟩] [⟨0, 0⟩, ⟨0, 1⟩, ⟨0, 0⟩]
    zeroDistModel_consistent (by norm_num) (by decide)

set_option maxRecDepth 40000 in
unseal Rat.add Rat.mul Rat.inv Rat.sub in
theorem claim_C4_counterexample :
    (DensifyRing probeRing powerLatModel powerLatModel 1).2 = some .toleranceTooLow
    ∧ (DensifyRing (DensifyRing probeRing powerLatModel powerLatModel 1).1
          powerLatModel powerLatModel 1).1
        ≠ (DensifyRing probeRing powerLatModel powerLatModel 1).1 := by
  decide

/-- C5 (amended): `SegmentError` is exactly 0 on a meridian-aligned segment
(equal longitudes); `DensifySegment`, which does not consult `SegmentError`
and has no meridian short-circuit, returns exactly the original two points
whenever its own measured midpoint discrepancy is within the (positive)
tolerance — for a model pair whose midpoints on the segment coincide that is
every tolerance, but not for arbitrary model pairs (see the counterexample). -/
theorem claim_C5 (M R : EarthModel) (tol : ℚ) (p0 p1 : Point) :
    (p0.lon = p1.lon → SegmentError p0 p1 M R = 0)
    ∧ (0 < tol → midOK M R tol p0 p1 → DensifySegment p0 p1 M R tol = ([p0, p1], none)) := by
  constructor
  · intro h
    unfold SegmentError
    rw [if_pos h]
  · intro htol hm
    exact DensifySegment_accept htol hm

unseal Rat.add Rat.mul Rat.inv Rat.sub in
theorem claim_C5_witness :
    SegmentError ⟨0, 5⟩ ⟨0, 6⟩ zeroDistModel zeroDistModel = 0
    ∧ DensifySegment ⟨0, 5⟩ ⟨0, 6⟩ zeroDistModel zeroDistModel 1 = ([⟨0, 5⟩, ⟨0, 6⟩], none) :=
  ⟨(claim_C5 zeroDistModel zeroDistModel 1 ⟨0, 5⟩ ⟨0, 6⟩).1 rfl,
   (claim_C5 zeroDistModel zeroDistModel 1 ⟨0, 5⟩ ⟨0, 6⟩).2 (by norm_num)
     (by unfold midOK; decide)⟩

unseal Rat.add Rat.mul Rat.inv Rat.sub in
theorem claim_C5_counterexample :
    (⟨0, 0⟩ : Point).lon = (⟨0, 10⟩ : Point).lon
    ∧ SegmentError ⟨0, 0⟩ ⟨0, 10⟩ fractionProbeModel leftEndpointModel = 0
    ∧ (0 : ℚ) < 1
    ∧ (DensifySegment ⟨0, 0⟩ ⟨0, 10⟩ fractionProbeModel leftEndpointModel 1).1
        ≠ [⟨0, 0⟩, ⟨0, 10⟩] := by
  decide

/-- C6 (amended): only `SegmentError` normalizes a computed midpoint longitude
of −180 to +180 before measuring the distance — its measurement is taken from
the midpoint with longitude +180 whenever the computed longitude is −180.
The recursive densification (`densifySegment`) measures the raw midpoint
without this normalization (see the counterexample). -/
theorem claim_C6 (M R : EarthModel) (p0 p1 : Point)
    (hlon : p0.lon ≠ p1.lon)
    (hmid : (IntermediatePoint (pointToLatLon p0) (pointToLatLon p1) (1/2) M).Longitude = -180) :
    SegmentError p0 p1 M R
      = Distance ⟨(IntermediatePoint (pointToLatLon p0) (pointToLatLon p1) (1/2) M).Latitude, 180⟩
          (IntermediatePoint (pointToLatLon p0) (pointToLatLon p1) (1/2) R) M := by
  unfold SegmentError
  rw [if_neg hlon]
  dsimp only
  rw [if_pos hmid]

unseal Rat.add Rat.mul Rat.inv Rat.sub in
theorem claim_C6_witness :
    SegmentError ⟨170, 0⟩ ⟨-170, 0⟩ antimeridianProbeModel plus180Model = 0 := by
  have h := claim_C6 antimeridianProbeModel plus180Model ⟨170, 0⟩ ⟨-170, 0⟩
    (by decide) (by decide)
  rw [h]
  decide

unseal Rat.add Rat.mul Rat.inv Rat.sub in
theorem claim_C6_counterexample :
    DensifySegment ⟨170, 0⟩ ⟨-170, 0⟩ antimeridianProbeModel plus180Model 1
      ≠ DensifySegmentNorm ⟨170, 0⟩ ⟨-170, 0⟩ antimeridianProbeModel plus180Model 1 := by
  decide

/-- C8 (amended): the distance of the Vincenty inverse calculation is NaN
(`none`) exactly when the two points are `Equals`-coincident, when the
λ-iterate drifts past π (divergence), or when 1000 iterations pass without
convergence; whenever a number comes back, the points were not coincident,
the solver finished within its budget, and the number is the assembled
geodesic length `b·A·(σ−Δσ)`. -/
theorem claim_C8 (ops : RealOps) (ell : Ellipsoid) (llv dest : LatLon) :
    (VincentyDistanceTo ops ell llv dest = none ↔
      llv.Equals dest = true
      ∨ vincentySolve ops ell llv dest = none
      ∨ ∃ st, vincentySolve ops ell llv dest = some (st, true))
    ∧ ∀ s : ℚ, VincentyDistanceTo ops ell llv dest = some s →
        llv.Equals dest = false
        ∧ ∃ st, vincentySolve ops ell llv dest = some (st, false)
          ∧ s = vincentyLength ell st := by
  unfold VincentyDistanceTo VincentyInverseDistance
  cases he : LatLon.Equals llv dest with
  | true =>
    constructor
    · simp
    · intro s h
      simp at h
  | false =>
    simp only [Bool.false_eq_true, if_false]
    cases hs : vincentySolve ops ell llv dest with
    | none =>
      constructor
      · simp
      · intro s h
        simp at h
    | some p =>
      obtain ⟨st, ex⟩ := p
      cases ex with
      | true =>
        constructor
        · exact iff_of_true rfl (Or.inr (Or.inr ⟨st, rfl⟩))
        · intro s h
          simp at h
      | false =>
        constructor
        · refine iff_of_false (by simp) ?_
          rintro (h | h | ⟨st', h⟩)
          · cases h
          · cases h
          · simp at h
        · intro s h
          simp only [Bool.false_eq_true, if_false] at h
          exact ⟨by trivial, st, rfl, (Option.some.inj h).symm⟩

unseal Rat.add Rat.mul Rat.inv Rat.sub in
theorem claim_C8_witness :
    VincentyDistanceTo zeroOps WGS84 ⟨1, 2⟩ ⟨1, 2⟩ = none :=
  (claim_C8 zeroOps WGS84 ⟨1, 2⟩ ⟨1, 2⟩).1.mpr (Or.inl (by decide))

unseal Rat.add Rat.mul Rat.inv Rat.sub in
theorem claim_C8_counterexample :
    LatLon.Equals ⟨52205/1000, 119/1000⟩ ⟨52205/1000, 119/1000⟩ = true
    ∧ VincentyDistanceTo zeroOps WGS84 ⟨52205/1000, 119/1000⟩ ⟨52205/1000, 119/1000⟩
        = none := by
  decide

unseal Rat.add Rat.mul Rat.inv Rat.sub in
/-- C9: evaluation of the wrap functions at the inputs where the claimed
ranges fail.  `Wrap90 (-315)` produces 135, far outside the claimed (and
documented) range [−90, 90] — the source itself carries the comment
`TODO: fix e.g. -315°`; `Wrap180 (-180)` produces −180, the excluded endpoint
of the claimed range (−180, 180]; `Wrap360` behaves as claimed at −1. -/
theorem claim_C9 :
    Wrap90 (-315) = 135
    ∧ ¬(-90 ≤ Wrap90 (-315) ∧ Wrap90 (-315) ≤ 90)
    ∧ Wrap180 (-180) = -180
    ∧ ¬(-180 < Wrap180 (-180) ∧ Wrap180 (-180) ≤ 180)
    ∧ Wrap360 (-1) = 359 ∧ 0 ≤ Wrap360 (-1) ∧ Wrap360 (-1) < 360 := by
  decide

/-- C10: `MercatorPoint` rejects latitudes only on the northern side: it
returns the NaN/NaN point exactly when the latitude exceeds `MercatorMaxLat`,
while every latitude below `-MercatorMaxLat` (including −90) is not rejected
and produces a computed coordinate pair. -/
theorem claim_C10 (tanF logF : ℚ → ℚ) (ll : LatLon) :
    (MercatorPoint tanF logF ll = none ↔ MercatorMaxLat < ll.Latitude)
    ∧ (ll.Latitude < -MercatorMaxLat → ∃ p, MercatorPoint tanF logF ll = some p) := by
  unfold MercatorPoint
  by_cases h : ll.Latitude > MercatorMaxLat
  · rw [if_pos h]
    constructor
    · exact iff_of_true rfl h
    · intro hlt
      exfalso
      have hpos : (0 : ℚ) < MercatorMaxLat := by norm_num [MercatorMaxLat]
      linarith
  · rw [if_neg h]
    exact ⟨iff_of_false (by simp) h, fun _ => ⟨_, rfl⟩⟩

theorem claim_C10_witness :
    ∃ p, MercatorPoint id id ⟨-90, 0⟩ = some p :=
  (claim_C10 id id ⟨-90, 0⟩).2 (by norm_num [MercatorMaxLat])

end Geod
